import Mathlib

/-!
Shallow embedding of the translaitor repository (office-document translation
pipeline) for checking its natural-language specification.

The embedding follows the Python sources:
* `src/translator.py`   — `translate_with_gemini` response validation / retry
  logic and `call_gemini_with_retry` transport-level retry wrapper;
* `src/pptx_handler.py` — run-level PPTX extraction, `TextIterator`,
  run-level reintegration;
* `src/docx_handler.py` — run-level DOCX extraction and reintegration;
* `src/reintegrator.py` — aggregate-level PPTX reintegration
  (`replace_text_preserve_formatting`) and its summary messages;
* `src/base_handler.py` — `BaseDocumentHandler.reintegrate` summary messages;
* `src/translation_prompts.py` — `get_translation_prompt` formal parameters.

Machine-level details that the claims do not touch (file I/O, the network
client object, console colours) are elided; everything that decides a claim is
translated from the source.
-/

/-- One unit of the transfer format: a slide (PPTX) or paragraph (DOCX) entry
`{"texts": [...]}`. -/
structure JUnit where
  texts : List String
deriving DecidableEq, Repr

/-- A parsed JSON root object, as used by `translate_with_gemini`: the
translator only ever looks up the keys `"slides"` and `"paragraphs"`, so the
root object is modelled by those two optional entries. -/
structure RootObj where
  slides : Option (List JUnit)
  paragraphs : Option (List JUnit)
deriving DecidableEq, Repr

/-- `structure_key = "slides" if "slides" in data else "paragraphs"`
(`translator.py:368`). -/
def structureKey (data : RootObj) : String :=
  if data.slides.isSome then "slides" else "paragraphs"

/-- `item_name = "slide" if structure_key == "slides" else "paragraph"`
(`translator.py:369`). -/
def itemName (data : RootObj) : String :=
  if structureKey data = "slides" then "slide" else "paragraph"

/-- Python `obj[key]` on the root object: `some` is a successful lookup,
`none` is a `KeyError`. -/
def getKey (o : RootObj) (k : String) : Option (List JUnit) :=
  if k = "slides" then o.slides else o.paragraphs

/-- The loop `for i, (orig_slide, trans_slide) in enumerate(zip(...))` of
`translator.py:377-380`: first index (from `i0`) where the per-unit `texts`
counts differ, with the two counts; `none` if no zipped pair differs. -/
def findFragMismatch : List JUnit → List JUnit → Nat → Option (Nat × Nat × Nat)
  | [], _, _ => none
  | _, [], _ => none
  | o :: os, t :: ts, i =>
    if o.texts.length ≠ t.texts.length then some (i, o.texts.length, t.texts.length)
    else findFragMismatch os ts (i + 1)

/-- Outcome of one pass of the structure validation in
`translate_with_gemini` (`translator.py:367-413`), before the retry decision
is applied. -/
inductive VOutcome where
  | accepted (obj : RootObj)
  | keyErrorData (key : String)
  | keyErrorTranslated (key : String)
  | unitCountMismatch (item : String) (origN transN : Nat)
  | fragCountMismatch (item : String) (unitIdx origC transC : Nat)
deriving DecidableEq, Repr

/-- One validation pass of `translate_with_gemini` over a parsed response
(`translator.py:367-413`): look up the structure key in the request `data`
and in `translated_data` (a missing key is a Python `KeyError`), compare the
unit counts, then scan zipped units for the first fragment-count mismatch;
when nothing mismatches the parsed response object is returned. -/
def validateStructureStep (data obj : RootObj) : VOutcome :=
  match getKey data (structureKey data) with
  | none => .keyErrorData (structureKey data)
  | some origUnits =>
    match getKey obj (structureKey data) with
    | none => .keyErrorTranslated (structureKey data)
    | some transUnits =>
      if origUnits.length ≠ transUnits.length then
        .unitCountMismatch (itemName data) origUnits.length transUnits.length
      else
        match findFragMismatch origUnits transUnits 0 with
        | some (i, oc, tc) => .fragCountMismatch (itemName data) i oc tc
        | none => .accepted obj

/-- A backend response after `response.text.strip()` and code-fence removal,
at the `json.loads` stage (`translator.py:341-342`): either it fails to parse
(with the decoder's error position) or it parses to a root object. -/
inductive Resp where
  | unparsable (pos : Nat)
  | parsed (obj : RootObj)
deriving DecidableEq, Repr

/-- The error outcomes of `translate_with_gemini`:
`parseError` is the `ValueError` of `translator.py:361-365` (naming the parse
position and the attempt count), the `keyError`s are uncaught Python
`KeyError`s from indexing a dict without the key, `unitCountMismatch` is the
`ValueError` of `translator.py:372-375`, `fragCountMismatch` the `ValueError`
of `translator.py:406-411`, and `noResponse` models a transport failure
propagating out of `call_gemini_with_retry`. -/
inductive TransErr where
  | parseError (pos : Nat) (attempts : Nat)
  | keyErrorData (key : String)
  | keyErrorTranslated (key : String)
  | unitCountMismatch (item : String) (origN transN : Nat)
  | fragCountMismatch (item : String) (unitIdx origC transC attempts : Nat)
  | noResponse
deriving DecidableEq, Repr

/-- `max_structure_retries = 2` (`translator.py:398`). -/
def maxStructureRetries : Nat := 2

/-- `translate_with_gemini` (`translator.py:289-413`), with the backend
modelled as the list of successive responses (one consumed per attempt) and
the transport layer elided (it is modelled separately by
`callGeminiWithRetry`).  Control flow follows the source:
* parse failure retries the whole request iff `retry_attempt == 0`
  (`translator.py:356-359`), else raises the parse `ValueError`;
* a missing structure key raises `KeyError`;
* a top-level unit-count mismatch raises its `ValueError` immediately
  (`translator.py:371-375`);
* the first per-unit fragment-count mismatch retries while
  `retry_attempt < max_structure_retries`, else raises
  (`translator.py:397-411`);
* otherwise the parsed response is returned. -/
def translateWithGemini (data : RootObj) : List Resp → Nat → Except TransErr RootObj
  | [], _ => .error .noResponse
  | .unparsable pos :: rest, retryAttempt =>
    if retryAttempt = 0 then translateWithGemini data rest (retryAttempt + 1)
    else .error (.parseError pos (retryAttempt + 1))
  | .parsed obj :: rest, retryAttempt =>
    match validateStructureStep data obj with
    | .accepted o => .ok o
    | .keyErrorData k => .error (.keyErrorData k)
    | .keyErrorTranslated k => .error (.keyErrorTranslated k)
    | .unitCountMismatch item o t => .error (.unitCountMismatch item o t)
    | .fragCountMismatch item i oc tc =>
      if retryAttempt < maxStructureRetries then
        translateWithGemini data rest (retryAttempt + 1)
      else .error (.fragCountMismatch item i oc tc maxStructureRetries)

/-! ### Properties of the fragment-count scan -/

theorem findFragMismatch_none_iff (os ts : List JUnit) (i0 : Nat) :
    findFragMismatch os ts i0 = none ↔
      ∀ j (h1 : j < os.length) (h2 : j < ts.length),
        (os.get ⟨j, h1⟩).texts.length = (ts.get ⟨j, h2⟩).texts.length := by
  induction os generalizing ts i0 with
  | nil => simp [findFragMismatch]
  | cons o os ih =>
    cases ts with
    | nil => simp [findFragMismatch]
    | cons t ts =>
      by_cases h : o.texts.length = t.texts.length
      · rw [show findFragMismatch (o :: os) (t :: ts) i0 = findFragMismatch os ts (i0 + 1) by
          simp [findFragMismatch, h]]
        rw [ih ts (i0 + 1)]
        constructor
        · intro hall j h1 h2
          cases j with
          | zero => exact h
          | succ j => exact hall j (Nat.lt_of_succ_lt_succ h1) (Nat.lt_of_succ_lt_succ h2)
        · intro hall j h1 h2
          exact hall (j + 1) (Nat.succ_lt_succ h1) (Nat.succ_lt_succ h2)
      · rw [show findFragMismatch (o :: os) (t :: ts) i0
            = some (i0, o.texts.length, t.texts.length) by simp [findFragMismatch, h]]
        constructor
        · intro habs
          exact Option.noConfusion habs
        · intro hall
          exact absurd (hall 0 (Nat.succ_pos _) (Nat.succ_pos _)) h

theorem findFragMismatch_shift (os ts : List JUnit) (i0 : Nat) :
    findFragMismatch os ts i0
      = (findFragMismatch os ts 0).map (fun p => (p.1 + i0, p.2.1, p.2.2)) := by
  induction os generalizing ts i0 with
  | nil => simp [findFragMismatch]
  | cons o os ih =>
    cases ts with
    | nil => simp [findFragMismatch]
    | cons t ts =>
      by_cases h : o.texts.length = t.texts.length
      · rw [show findFragMismatch (o :: os) (t :: ts) i0 = findFragMismatch os ts (i0 + 1) by
          simp [findFragMismatch, h]]
        rw [show findFragMismatch (o :: os) (t :: ts) 0 = findFragMismatch os ts 1 by
          simp [findFragMismatch, h]]
        rw [ih ts (i0 + 1), ih ts 1]
        cases hf : findFragMismatch os ts 0 with
        | none => simp
        | some p =>
          obtain ⟨p1, p2, p3⟩ := p
          simp only [Option.map_some', Option.some.injEq, Prod.mk.injEq]
          exact ⟨by omega, trivial⟩
      · rw [show findFragMismatch (o :: os) (t :: ts) i0
            = some (i0, o.texts.length, t.texts.length) by simp [findFragMismatch, h]]
        rw [show findFragMismatch (o :: os) (t :: ts) 0
            = some (0, o.texts.length, t.texts.length) by simp [findFragMismatch, h]]
        simp

theorem findFragMismatch_some_spec (os ts : List JUnit) (i oc tc : Nat)
    (h : findFragMismatch os ts 0 = some (i, oc, tc)) :
    ∃ (h1 : i < os.length) (h2 : i < ts.length),
      oc = (os.get ⟨i, h1⟩).texts.length ∧ tc = (ts.get ⟨i, h2⟩).texts.length ∧ oc ≠ tc ∧
      ∀ j (hj1 : j < os.length) (hj2 : j < ts.length), j < i →
        (os.get ⟨j, hj1⟩).texts.length = (ts.get ⟨j, hj2⟩).texts.length := by
  induction os generalizing ts i with
  | nil => simp [findFragMismatch] at h
  | cons o os ih =>
    cases ts with
    | nil => simp [findFragMismatch] at h
    | cons t ts =>
      by_cases hh : o.texts.length = t.texts.length
      · have h1 : findFragMismatch os ts 1 = some (i, oc, tc) := by
          rw [show findFragMismatch (o :: os) (t :: ts) 0 = findFragMismatch os ts 1 by
            simp [findFragMismatch, hh]] at h
          exact h
        rw [findFragMismatch_shift os ts 1] at h1
        cases hf : findFragMismatch os ts 0 with
        | none => rw [hf] at h1; exact Option.noConfusion h1
        | some p =>
          rw [hf] at h1
          obtain ⟨p1, p2, p3⟩ := p
          simp only [Option.map_some', Option.some.injEq, Prod.mk.injEq] at h1
          obtain ⟨hi, hoc, htc⟩ := h1
          subst hoc htc
          obtain ⟨g1, g2, ha, hb, hne, hmin⟩ := ih ts p1 hf
          have hi' : i = p1 + 1 := hi.symm
          subst hi'
          refine ⟨Nat.succ_lt_succ g1, Nat.succ_lt_succ g2, ha, hb, hne, ?_⟩
          intro j hj1 hj2 hji
          cases j with
          | zero => exact hh
          | succ j =>
            exact hmin j (Nat.lt_of_succ_lt_succ hj1) (Nat.lt_of_succ_lt_succ hj2)
              (Nat.lt_of_succ_lt_succ hji)
      · rw [show findFragMismatch (o :: os) (t :: ts) 0
            = some (0, o.texts.length, t.texts.length) by simp [findFragMismatch, hh]] at h
        simp only [Option.some.injEq, Prod.mk.injEq] at h
        obtain ⟨hi, hoc, htc⟩ := h
        subst hi hoc htc
        refine ⟨Nat.succ_pos _, Nat.succ_pos _, rfl, rfl, hh, ?_⟩
        intro j hj1 hj2 hji
        exact absurd hji (Nat.not_lt_zero j)

/-! ### Branch lemmas for the validation pass -/

theorem validateStructureStep_unitMismatch (data obj : RootObj) (X Y : List JUnit)
    (hX : getKey data (structureKey data) = some X)
    (hY : getKey obj (structureKey data) = some Y)
    (hne : X.length ≠ Y.length) :
    validateStructureStep data obj = .unitCountMismatch (itemName data) X.length Y.length := by
  simp [validateStructureStep, hX, hY, hne]

theorem validateStructureStep_fragMismatch (data obj : RootObj) (X Y : List JUnit)
    (i oc tc : Nat)
    (hX : getKey data (structureKey data) = some X)
    (hY : getKey obj (structureKey data) = some Y)
    (hlen : X.length = Y.length)
    (hm : findFragMismatch X Y 0 = some (i, oc, tc)) :
    validateStructureStep data obj = .fragCountMismatch (itemName data) i oc tc := by
  simp [validateStructureStep, hX, hY, hlen, hm]

theorem validateStructureStep_accepted (data obj : RootObj) (X Y : List JUnit)
    (hX : getKey data (structureKey data) = some X)
    (hY : getKey obj (structureKey data) = some Y)
    (hlen : X.length = Y.length)
    (hm : findFragMismatch X Y 0 = none) :
    validateStructureStep data obj = .accepted obj := by
  simp [validateStructureStep, hX, hY, hlen, hm]

theorem validateStructureStep_accepted_iff (data obj : RootObj) (X Y : List JUnit)
    (hX : getKey data (structureKey data) = some X)
    (hY : getKey obj (structureKey data) = some Y) :
    validateStructureStep data obj = .accepted obj ↔
      Y.length = X.length ∧
      ∀ i (h1 : i < X.length) (h2 : i < Y.length),
        (Y.get ⟨i, h2⟩).texts.length = (X.get ⟨i, h1⟩).texts.length := by
  by_cases hlen : X.length = Y.length
  · cases hm : findFragMismatch X Y 0 with
    | none =>
      rw [validateStructureStep_accepted data obj X Y hX hY hlen hm]
      constructor
      · intro _
        refine ⟨hlen.symm, ?_⟩
        intro i h1 h2
        exact ((findFragMismatch_none_iff X Y 0).mp hm i h1 h2).symm
      · intro _
        rfl
    | some p =>
      obtain ⟨i, oc, tc⟩ := p
      rw [validateStructureStep_fragMismatch data obj X Y i oc tc hX hY hlen hm]
      constructor
      · intro habs
        exact VOutcome.noConfusion habs
      · rintro ⟨-, hg⟩
        obtain ⟨g1, g2, ha, hb, hne, -⟩ := findFragMismatch_some_spec X Y i oc tc hm
        exact absurd (by rw [ha, hb]; exact (hg i g1 g2).symm) hne
  · rw [validateStructureStep_unitMismatch data obj X Y hX hY hlen]
    constructor
    · intro habs
      exact VOutcome.noConfusion habs
    · rintro ⟨h1, -⟩
      exact absurd h1.symm hlen

theorem validateStructureStep_accepted_iff_countsMap (data obj : RootObj) (X Y : List JUnit)
    (hX : getKey data (structureKey data) = some X)
    (hY : getKey obj (structureKey data) = some Y) :
    validateStructureStep data obj = .accepted obj ↔
      Y.map (fun u => u.texts.length) = X.map (fun u => u.texts.length) := by
  rw [validateStructureStep_accepted_iff data obj X Y hX hY]
  constructor
  · rintro ⟨hl, hg⟩
    apply List.ext_get (by simpa using hl)
    intro i h1 h2
    simpa using hg i (by simpa using h2) (by simpa using h1)
  · intro hmap
    have hl : Y.length = X.length := by
      have := congrArg List.length hmap
      simpa using this
    refine ⟨hl, ?_⟩
    intro i h1 h2
    have e := List.get_of_eq hmap ⟨i, by simpa using h2⟩
    simpa using e

/-- C1: for every request ExtractedDocument and every backend response that
parses as the transfer format, the validation of `translate_with_gemini`
accepts the response (returns it as the translated structure) iff the
unit counts agree and every zipped unit has the same fragment count; the
decision is a function of the fragment counts alone (responses with the same
per-unit counts get the same decision regardless of text contents), and an
accepted response is returned as the call's value. -/
theorem c1_validation_accepts_iff_shape (data obj : RootObj) (X Y : List JUnit)
    (hX : getKey data (structureKey data) = some X)
    (hY : getKey obj (structureKey data) = some Y) :
    (validateStructureStep data obj = .accepted obj ↔
        Y.length = X.length ∧
        ∀ i (h1 : i < X.length) (h2 : i < Y.length),
          (Y.get ⟨i, h2⟩).texts.length = (X.get ⟨i, h1⟩).texts.length)
    ∧ (∀ obj' Y', getKey obj' (structureKey data) = some Y' →
        Y'.map (fun u => u.texts.length) = Y.map (fun u => u.texts.length) →
        (validateStructureStep data obj' = .accepted obj' ↔
         validateStructureStep data obj = .accepted obj))
    ∧ (∀ rest retryAttempt, validateStructureStep data obj = .accepted obj →
        translateWithGemini data (.parsed obj :: rest) retryAttempt = .ok obj) := by
  refine ⟨validateStructureStep_accepted_iff data obj X Y hX hY, ?_, ?_⟩
  · intro obj' Y' hY' hcounts
    rw [validateStructureStep_accepted_iff_countsMap data obj' X Y' hX hY',
      validateStructureStep_accepted_iff_countsMap data obj X Y hX hY, hcounts]
  · intro rest retryAttempt hacc
    simp [translateWithGemini, hacc]

/-- C1 witness: the validation accepts a same-shape response for a concrete
one-slide, two-fragment request. -/
theorem c1_witness :
    validateStructureStep ⟨some [⟨["Hello", "World"]⟩], none⟩
        ⟨some [⟨["Hola", "Mundo"]⟩], none⟩
      = .accepted ⟨some [⟨["Hola", "Mundo"]⟩], none⟩ := by
  have h := c1_validation_accepts_iff_shape ⟨some [⟨["Hello", "World"]⟩], none⟩
      ⟨some [⟨["Hola", "Mundo"]⟩], none⟩ [⟨["Hello", "World"]⟩] [⟨["Hola", "Mundo"]⟩]
      (by rfl) (by rfl)
  refine h.1.mpr ⟨rfl, ?_⟩
  intro i h1 h2
  cases i with
  | zero => rfl
  | succ j => simp at h1

/-- C3 counterexample: a top-level unit-count mismatch (1 slide requested,
2 slides returned) raises its diagnostic `ValueError` immediately on the very
first attempt, with `retry_attempt = 0` and two well-formed responses still
unconsumed in the backend trace — the claimed escalated retry never happens
for unit-count mismatches. -/
theorem c3_unit_mismatch_counterexample :
    translateWithGemini ⟨some [⟨["a"]⟩], none⟩
        [.parsed ⟨some [⟨["a"]⟩, ⟨["b"]⟩], none⟩,
         .parsed ⟨some [⟨["x"]⟩], none⟩,
         .parsed ⟨some [⟨["x"]⟩], none⟩] 0
      = .error (.unitCountMismatch "slide" 1 2)
    ∧ translateWithGemini ⟨some [⟨["a"]⟩], none⟩
        [.parsed ⟨some [⟨["a"]⟩, ⟨["b"]⟩], none⟩,
         .parsed ⟨some [⟨["x"]⟩], none⟩,
         .parsed ⟨some [⟨["x"]⟩], none⟩] 0
      ≠ .ok ⟨some [⟨["x"]⟩], none⟩ := by
  constructor
  · rfl
  · intro habs
    have h2 : (Except.error (.unitCountMismatch "slide" 1 2) : Except TransErr RootObj)
        = .ok ⟨some [⟨["x"]⟩], none⟩ := habs
    exact Except.noConfusion h2

/-- C3 amended: only per-unit fragment-count mismatches trigger the escalated
whole-request retry, bounded by `max_structure_retries = 2`; a top-level
unit-count mismatch raises its diagnostic error immediately at any
`retry_attempt`.  For fragment mismatches the reported unit is the first
mismatching one in order (all earlier zipped units have equal counts), the
request is retried with `retry_attempt + 1` while `retry_attempt < 2`, and
once `retry_attempt ≥ 2` the diagnostic count-mismatch error is raised. -/
theorem c3_structural_mismatch_policy (data obj : RootObj) (rest : List Resp)
    (retryAttempt : Nat) (X Y : List JUnit)
    (hX : getKey data (structureKey data) = some X)
    (hY : getKey obj (structureKey data) = some Y) :
    (X.length ≠ Y.length →
      translateWithGemini data (.parsed obj :: rest) retryAttempt
        = .error (.unitCountMismatch (itemName data) X.length Y.length))
    ∧ (∀ i oc tc, X.length = Y.length → findFragMismatch X Y 0 = some (i, oc, tc) →
        (retryAttempt < maxStructureRetries →
          translateWithGemini data (.parsed obj :: rest) retryAttempt
            = translateWithGemini data rest (retryAttempt + 1))
        ∧ (maxStructureRetries ≤ retryAttempt →
          translateWithGemini data (.parsed obj :: rest) retryAttempt
            = .error (.fragCountMismatch (itemName data) i oc tc maxStructureRetries))
        ∧ ∃ (g1 : i < X.length) (g2 : i < Y.length),
            oc = (X.get ⟨i, g1⟩).texts.length ∧ tc = (Y.get ⟨i, g2⟩).texts.length ∧
            oc ≠ tc ∧
            ∀ j (hj1 : j < X.length) (hj2 : j < Y.length), j < i →
              (X.get ⟨j, hj1⟩).texts.length = (Y.get ⟨j, hj2⟩).texts.length) := by
  constructor
  · intro hne
    have hv := validateStructureStep_unitMismatch data obj X Y hX hY hne
    simp [translateWithGemini, hv]
  · intro i oc tc hlen hm
    have hv := validateStructureStep_fragMismatch data obj X Y i oc tc hX hY hlen hm
    refine ⟨?_, ?_, findFragMismatch_some_spec X Y i oc tc hm⟩
    · intro hra
      simp [translateWithGemini, hv, hra]
    · intro hra
      simp [translateWithGemini, hv, Nat.not_lt_of_le hra]

/-- C3 witness: a concrete fragment-count mismatch (2 fragments requested,
1 returned) at `retry_attempt = 0` makes the orchestrator consume the next
response of the trace with `retry_attempt = 1`. -/
theorem c3_structural_mismatch_policy_witness :
    translateWithGemini ⟨some [⟨["a", "b"]⟩], none⟩
        [.parsed ⟨some [⟨["x"]⟩], none⟩] 0
      = translateWithGemini ⟨some [⟨["a", "b"]⟩], none⟩ [] 1 := by
  have h := (c3_structural_mismatch_policy ⟨some [⟨["a", "b"]⟩], none⟩
      ⟨some [⟨["x"]⟩], none⟩ [] 0 [⟨["a", "b"]⟩] [⟨["x"]⟩] (by rfl) (by rfl)).2
      0 2 1 (by rfl) (by rfl)
  exact h.1 (by decide)

/-- C5 counterexample: the parse-failure retry is keyed on `retry_attempt == 0`,
not on "first parse failure".  After one structural retry (fragment-count
mismatch), the next response's parse failure is the first parse failure of the
request, yet it is fatal (`ValueError` naming parse position 7), and the
remaining well-formed response is never consumed. -/
theorem c5_parse_retry_counterexample :
    translateWithGemini ⟨some [⟨["a", "b"]⟩], none⟩
        [.parsed ⟨some [⟨["x"]⟩], none⟩, .unparsable 7,
         .parsed ⟨some [⟨["x", "y"]⟩], none⟩] 0
      = .error (.parseError 7 2)
    ∧ translateWithGemini ⟨some [⟨["a", "b"]⟩], none⟩
        [.parsed ⟨some [⟨["x"]⟩], none⟩, .unparsable 7,
         .parsed ⟨some [⟨["x", "y"]⟩], none⟩] 0
      ≠ .ok ⟨some [⟨["x", "y"]⟩], none⟩ := by
  constructor
  · rfl
  · intro habs
    have h2 : (Except.error (.parseError 7 2) : Except TransErr RootObj)
        = .ok ⟨some [⟨["x", "y"]⟩], none⟩ := habs
    exact Except.noConfusion h2

/-- C5 amended: a response that fails to parse as JSON is retried (entire
request, once more) exactly when `retry_attempt = 0`, i.e. when no prior
retry of any kind — parse or structural — has occurred; with any
`retry_attempt ≠ 0` a parse failure is fatal and raises the error naming the
parse position and the attempt count. -/
theorem c5_parse_failure_policy (data : RootObj) (rest : List Resp)
    (pos retryAttempt : Nat) :
    (retryAttempt = 0 →
      translateWithGemini data (.unparsable pos :: rest) retryAttempt
        = translateWithGemini data rest 1)
    ∧ (retryAttempt ≠ 0 →
      translateWithGemini data (.unparsable pos :: rest) retryAttempt
        = .error (.parseError pos (retryAttempt + 1))) := by
  constructor
  · intro h
    subst h
    simp [translateWithGemini]
  · intro h
    simp [translateWithGemini, h]

/-- C5 witness: both branches of the parse-failure policy at concrete inputs:
a parse failure retries at `retry_attempt = 0` and is fatal at
`retry_attempt = 1`. -/
theorem c5_parse_failure_policy_witness :
    translateWithGemini ⟨some [⟨["a"]⟩], none⟩ [.unparsable 3] 0
      = translateWithGemini ⟨some [⟨["a"]⟩], none⟩ [] 1
    ∧ translateWithGemini ⟨some [⟨["a"]⟩], none⟩ [.unparsable 3] 1
      = .error (.parseError 3 2) := by
  constructor
  · exact (c5_parse_failure_policy ⟨some [⟨["a"]⟩], none⟩ [] 3 0).1 rfl
  · exact (c5_parse_failure_policy ⟨some [⟨["a"]⟩], none⟩ [] 3 1).2 (by decide)

/-- C10: when the parsed response object lacks the root structure key that
the request's data contains — `"slides"` for PPTX-keyed requests,
`"paragraphs"` for DOCX-keyed requests (`structure_key = "slides" if
"slides" in data else "paragraphs"`, `translator.py:368`) —
`translate_with_gemini` hits an uncaught Python `KeyError` while indexing
the translated data: the outcome is that `KeyError`, not a structural retry
and not one of the count-mismatch `ValueError`s. -/
theorem c10_missing_root_key_keyerror (data obj : RootObj) (rest : List Resp)
    (retryAttempt : Nat) (X : List JUnit) :
    (data.slides = some X → obj.slides = none →
      translateWithGemini data (.parsed obj :: rest) retryAttempt
        = .error (.keyErrorTranslated "slides"))
    ∧ (data.slides = none → data.paragraphs = some X → obj.paragraphs = none →
      translateWithGemini data (.parsed obj :: rest) retryAttempt
        = .error (.keyErrorTranslated "paragraphs")) := by
  constructor
  · intro hdata hobj
    have hsk : structureKey data = "slides" := by simp [structureKey, hdata]
    have h1 : getKey data (structureKey data) = some X := by simp [getKey, hsk, hdata]
    have h2 : getKey obj (structureKey data) = none := by simp [getKey, hsk, hobj]
    have hv : validateStructureStep data obj = .keyErrorTranslated "slides" := by
      rw [validateStructureStep, h1, h2, hsk]
    simp [translateWithGemini, hv]
  · intro hnoslides hdata hobj
    have hsk : structureKey data = "paragraphs" := by simp [structureKey, hnoslides]
    have h1 : getKey data (structureKey data) = some X := by simp [getKey, hsk, hdata]
    have h2 : getKey obj (structureKey data) = none := by simp [getKey, hsk, hobj]
    have hv : validateStructureStep data obj = .keyErrorTranslated "paragraphs" := by
      rw [validateStructureStep, h1, h2, hsk]
    simp [translateWithGemini, hv]

/-- C10 witness: a concrete `"slides"`-keyed request whose response holds
only `"paragraphs"`, and a concrete `"paragraphs"`-keyed request whose
response holds only `"slides"` — each produces the uncaught `KeyError` for
its own structure key. -/
theorem c10_missing_root_key_keyerror_witness :
    translateWithGemini ⟨some [⟨["Hello"]⟩], none⟩
        [.parsed ⟨none, some [⟨["Hola"]⟩]⟩] 0
      = .error (.keyErrorTranslated "slides")
    ∧ translateWithGemini ⟨none, some [⟨["Hello"]⟩]⟩
        [.parsed ⟨some [⟨["Hola"]⟩], none⟩] 0
      = .error (.keyErrorTranslated "paragraphs") := by
  constructor
  · exact (c10_missing_root_key_keyerror ⟨some [⟨["Hello"]⟩], none⟩
      ⟨none, some [⟨["Hola"]⟩]⟩ [] 0 [⟨["Hello"]⟩]).1 rfl rfl
  · exact (c10_missing_root_key_keyerror ⟨none, some [⟨["Hello"]⟩]⟩
      ⟨some [⟨["Hola"]⟩], none⟩ [] 0 [⟨["Hello"]⟩]).2 rfl rfl rfl

/-! ### `call_gemini_with_retry` (`translator.py:205-286`) -/

/-- Outcome of one `model.generate_content(prompt)` call: success, or one of
the exception classes the wrapper distinguishes.  `retryAfter` models a
`Retry-After` response header that is present and parses as an integer
(`translator.py:231-235`, `253-257`); the `DeadlineExceeded` branch never
reads the header. -/
inductive GOutcome where
  | success (resp : String)
  | rateLimit (retryAfter : Option Nat)
  | serverError (retryAfter : Option Nat)
  | timeout
  | other
deriving DecidableEq, Repr

/-- The exception that `call_gemini_with_retry` lets escape: the bare
`raise` of each exhausted handler re-raises the original exception kind,
`otherError` is the immediately fatal catch-all (`translator.py:281-284`),
and `exhaustedFallthrough` is the final
`raise Exception(f"Failed after {max_retries} retry attempts")`
(`translator.py:286`, reachable only when the `range(max_retries)` loop body
never runs). -/
inductive CallErr where
  | rateLimitExhausted
  | serverErrorExhausted
  | timeoutExhausted
  | otherError
  | exhaustedFallthrough
deriving DecidableEq, Repr

/-- `wait_time = initial_delay * (2**attempt)`, overridden by a present,
integer-parsing `Retry-After` header (`translator.py:230-235`). -/
def backoffWait (initialDelay attempt : Nat) (retryAfter : Option Nat) : Nat :=
  match retryAfter with
  | some ra => ra
  | none => initialDelay * 2 ^ attempt

/-- The `for attempt in range(max_retries)` loop of `call_gemini_with_retry`,
from loop index `attempt`; `waits` accumulates the `time.sleep` durations in
order.  Branches follow `translator.py:222-286`: a retryable exception on a
non-final attempt sleeps and continues, on the final attempt re-raises; the
timeout backoff is `initial_delay * (2 ** (attempt + 1))` and ignores
`Retry-After`; any other exception raises immediately. -/
def callLoop (outcomes : Nat → GOutcome) (maxRetries initialDelay attempt : Nat)
    (waits : List Nat) : Except CallErr String × List Nat :=
  if attempt < maxRetries then
    match outcomes attempt with
    | .success r => (.ok r, waits)
    | .rateLimit ra =>
      if attempt < maxRetries - 1 then
        callLoop outcomes maxRetries initialDelay (attempt + 1)
          (waits ++ [backoffWait initialDelay attempt ra])
      else (.error .rateLimitExhausted, waits)
    | .serverError ra =>
      if attempt < maxRetries - 1 then
        callLoop outcomes maxRetries initialDelay (attempt + 1)
          (waits ++ [backoffWait initialDelay attempt ra])
      else (.error .serverErrorExhausted, waits)
    | .timeout =>
      if attempt < maxRetries - 1 then
        callLoop outcomes maxRetries initialDelay (attempt + 1)
          (waits ++ [initialDelay * 2 ^ (attempt + 1)])
      else (.error .timeoutExhausted, waits)
    | .other => (.error .otherError, waits)
  else (.error .exhaustedFallthrough, waits)
termination_by maxRetries - attempt

/-- `call_gemini_with_retry(model, prompt, max_retries, initial_delay)`
(`translator.py:205-286`), with the backend modelled by the per-attempt
outcome function; returns the result together with the list of backoff
sleeps performed. -/
def callGeminiWithRetry (outcomes : Nat → GOutcome) (maxRetries initialDelay : Nat) :
    Except CallErr String × List Nat :=
  callLoop outcomes maxRetries initialDelay 0 []

/-- An exception outcome the wrapper retries (rate limit, transient server
error, timeout). -/
def retryable : GOutcome → Bool
  | .rateLimit _ => true
  | .serverError _ => true
  | .timeout => true
  | _ => false

/-- The sleep the wrapper performs after a retryable failure at loop index
`i`. -/
def expectedWait (outcomes : Nat → GOutcome) (initialDelay i : Nat) : Nat :=
  match outcomes i with
  | .rateLimit ra => backoffWait initialDelay i ra
  | .serverError ra => backoffWait initialDelay i ra
  | .timeout => initialDelay * 2 ^ (i + 1)
  | _ => 0

/-- The error re-raised when the final attempt fails with a retryable
exception. -/
def errOf : GOutcome → CallErr
  | .rateLimit _ => .rateLimitExhausted
  | .serverError _ => .serverErrorExhausted
  | .timeout => .timeoutExhausted
  | _ => .otherError

theorem callLoop_skip (outcomes : Nat → GOutcome) (maxRetries initialDelay : Nat) :
    ∀ (j attempt : Nat) (waits : List Nat),
      (∀ i, attempt ≤ i → i < attempt + j → retryable (outcomes i) = true) →
      attempt + j < maxRetries →
      callLoop outcomes maxRetries initialDelay attempt waits
        = callLoop outcomes maxRetries initialDelay (attempt + j)
            (waits ++ (List.range' attempt j).map (expectedWait outcomes initialDelay)) := by
  intro j
  induction j with
  | zero =>
    intro attempt waits _ _
    simp [List.range']
  | succ j ih =>
    intro attempt waits hr hlt
    have h1 : attempt < maxRetries := by omega
    have h2 : attempt < maxRetries - 1 := by omega
    have hra : retryable (outcomes attempt) = true := hr attempt (Nat.le_refl _) (by omega)
    have step : callLoop outcomes maxRetries initialDelay attempt waits
        = callLoop outcomes maxRetries initialDelay (attempt + 1)
            (waits ++ [expectedWait outcomes initialDelay attempt]) := by
      rw [callLoop]
      cases ho : outcomes attempt with
      | success r => rw [ho] at hra; simp [retryable] at hra
      | rateLimit ra => simp [h1, h2, expectedWait, ho]
      | serverError ra => simp [h1, h2, expectedWait, ho]
      | timeout => simp [h1, h2, expectedWait, ho]
      | other => rw [ho] at hra; simp [retryable] at hra
    rw [step]
    rw [ih (attempt + 1) (waits ++ [expectedWait outcomes initialDelay attempt])
      (fun i hi1 hi2 => hr i (by omega) (by omega)) (by omega)]
    rw [List.range'_succ]
    simp [Nat.add_comm, Nat.add_assoc, Nat.add_left_comm]

/-- C6: the transport retry wrapper retries exactly the rate-limit, transient
server-error and timeout exceptions — rate-limit and server errors sleeping
`initial_delay * 2 ^ attempt` unless overridden by a parsed `Retry-After`
value, timeouts sleeping `initial_delay * 2 ^ (attempt + 1)` — inside a
budget of `max_retries` total attempts; any other exception is raised
immediately with no further attempt and no sleep, and exhausting the budget
re-raises the final retryable failure. -/
theorem c6_transport_retry_policy (outcomes : Nat → GOutcome)
    (maxRetries initialDelay : Nat) :
    (∀ k r, k < maxRetries → (∀ i, i < k → retryable (outcomes i) = true) →
      outcomes k = .success r →
      callGeminiWithRetry outcomes maxRetries initialDelay
        = (.ok r, (List.range k).map (expectedWait outcomes initialDelay)))
    ∧ (∀ k, k < maxRetries → (∀ i, i < k → retryable (outcomes i) = true) →
      outcomes k = .other →
      callGeminiWithRetry outcomes maxRetries initialDelay
        = (.error .otherError, (List.range k).map (expectedWait outcomes initialDelay)))
    ∧ (0 < maxRetries → (∀ i, i < maxRetries → retryable (outcomes i) = true) →
      callGeminiWithRetry outcomes maxRetries initialDelay
        = (.error (errOf (outcomes (maxRetries - 1))),
           (List.range (maxRetries - 1)).map (expectedWait outcomes initialDelay))) := by
  refine ⟨?_, ?_, ?_⟩
  · intro k r hk hr hs
    unfold callGeminiWithRetry
    rw [callLoop_skip outcomes maxRetries initialDelay k 0 []
      (fun i h1 h2 => hr i (by omega)) (by omega)]
    rw [callLoop]
    simp only [Nat.zero_add, List.nil_append]
    rw [if_pos hk, hs, List.range_eq_range']
  · intro k hk hr ho
    unfold callGeminiWithRetry
    rw [callLoop_skip outcomes maxRetries initialDelay k 0 []
      (fun i h1 h2 => hr i (by omega)) (by omega)]
    rw [callLoop]
    simp only [Nat.zero_add, List.nil_append]
    rw [if_pos hk, ho, List.range_eq_range']
  · intro hpos hr
    unfold callGeminiWithRetry
    rw [callLoop_skip outcomes maxRetries initialDelay (maxRetries - 1) 0 []
      (fun i h1 h2 => hr i (by omega)) (by omega)]
    rw [callLoop]
    simp only [Nat.zero_add, List.nil_append]
    have h1 : maxRetries - 1 < maxRetries := by omega
    have h2 : ¬ (maxRetries - 1 < maxRetries - 1) := by omega
    rw [if_pos h1]
    cases ho : outcomes (maxRetries - 1) with
    | success r =>
      have hc := hr (maxRetries - 1) (by omega)
      rw [ho] at hc
      simp [retryable] at hc
    | rateLimit ra => rw [if_neg h2, List.range_eq_range']; simp [errOf, ho]
    | serverError ra => rw [if_neg h2, List.range_eq_range']; simp [errOf, ho]
    | timeout => rw [if_neg h2, List.range_eq_range']; simp [errOf, ho]
    | other =>
      have hc := hr (maxRetries - 1) (by omega)
      rw [ho] at hc
      simp [retryable] at hc

/-- C6 witness: the spec scenario — rate-limit failures on the first two
attempts, success on the third, `max_retries = 5`, `initial_delay = 1` —
succeeds after two exponential-backoff waits of 1s and 2s. -/
theorem c6_transport_retry_policy_witness :
    callGeminiWithRetry
        (fun i => if i < 2 then .rateLimit none else .success "ok") 5 1
      = (.ok "ok", [1, 2]) := by
  have h := (c6_transport_retry_policy
      (fun i => if i < 2 then .rateLimit none else .success "ok") 5 1).1 2 "ok"
      (by omega) (fun i hi => by simp [hi, retryable]) (by simp)
  rw [h]
  rfl

/-! ### `get_translation_prompt` and the prompt-building call (C4) -/

/-- The formal parameters of `get_translation_prompt`
(`translation_prompts.py:78-79`); the function has no `**kwargs`. -/
def getTranslationPromptParams : List String :=
  ["json_data", "target_lang", "source_lang", "style", "topic"]

/-- The keyword arguments `translate_with_gemini` passes when building the
prompt (`translator.py:316-324`). -/
def promptCallKeywords : List String :=
  ["json_data", "target_lang", "source_lang", "style", "topic", "retry_attempt", "config"]

/-- Python keyword-argument binding against a signature without `**kwargs`:
the call binds iff every keyword names a formal parameter; otherwise the call
raises `TypeError: got an unexpected keyword argument`. -/
def pythonKeywordsAccepted (params kwargs : List String) : Bool :=
  kwargs.all (fun k => params.contains k)

/-- C4: every prompt-building call in `translate_with_gemini` raises
`TypeError` — the call passes `retry_attempt` and `config` keywords that
`get_translation_prompt` does not declare, so no prompt (with or without an
escalating warning block) is ever built; the claimed `retry_attempt > 0`
warning block does not exist in the prompt builder's parameters at all. -/
theorem c4_prompt_call_type_error :
    pythonKeywordsAccepted getTranslationPromptParams promptCallKeywords = false
    ∧ ("retry_attempt" ∈ promptCallKeywords
        ∧ "retry_attempt" ∉ getTranslationPromptParams)
    ∧ ("config" ∈ promptCallKeywords ∧ "config" ∉ getTranslationPromptParams) := by
  refine ⟨rfl, ⟨?_, ?_⟩, ?_, ?_⟩ <;> decide

/-! ### Reintegration summary messages (C9) -/

/-- A console message printed by a reintegration summary: an ordinary status
line or a `⚠` warning line. -/
inductive Msg where
  | info (text : String)
  | warning (text : String)
deriving DecidableEq, Repr

/-- Whether a message is a warning line. -/
def isWarning : Msg → Bool
  | .warning _ => true
  | .info _ => false

/-- The summary printed by the legacy `reintegrate` entry point
(`reintegrator.py:259-266`): replaced count, a warning iff the replaced
count differs from the expected count
(`total_expected = sum(len(slide["texts"]) ...)`), then the saved path. -/
def reintegrateSummaryMsgs (totalReplaced totalExpected : Nat)
    (outputPath : String) : List Msg :=
  [.info s!"Replaced {totalReplaced} text elements"]
    ++ (if totalReplaced ≠ totalExpected then
          [.warning s!"Warning: Expected {totalExpected} texts but replaced {totalReplaced}"]
        else [])
    ++ [.info s!"Saved to {outputPath}"]

/-- `BaseDocumentHandler.print_reintegration_summary`
(`base_handler.py:94-102`), called by `BaseDocumentHandler.reintegrate`
(`base_handler.py:82-92`) — the reintegration path the CLI exposes
(`cli.py:127-138`, `cli.py:180`, `cli.py:348`): it prints the replaced count
and the saved path, and performs no comparison with an expected count. -/
def printReintegrationSummary (totalReplaced : Nat) (outputPath : String) : List Msg :=
  [.info s!"Replaced {totalReplaced} text elements", .info s!"Saved to {outputPath}"]

/-- C9 counterexample: on the handler-based reintegration path — the one the
CLI exposes — a run that replaced 1 fragment while the translated document
expected 2 produces no warning at all (the summary never consults the
expected count). -/
theorem c9_no_warning_counterexample :
    (printReintegrationSummary 1 "out.pptx").filter (fun m => isWarning m) = []
    ∧ (1 : Nat) ≠ 2 := by
  exact ⟨rfl, by decide⟩

/-- C9 amended: reintegration returns the replaced total and a count mismatch
is never an error on any path and the output is saved (a saved-path line is
always printed); but only the legacy `reintegrate` entry point of
`reintegrator.py` compares against the expected total and prints a warning
(exactly when the counts differ) — the handler path used by the CLI prints
no warning regardless. -/
theorem c9_reintegration_warning_policy (totalReplaced totalExpected : Nat)
    (outputPath : String) :
    ((reintegrateSummaryMsgs totalReplaced totalExpected outputPath).any
        (fun m => isWarning m) = true
      ↔ totalReplaced ≠ totalExpected)
    ∧ (printReintegrationSummary totalReplaced outputPath).any
        (fun m => isWarning m) = false
    ∧ Msg.info s!"Saved to {outputPath}"
        ∈ reintegrateSummaryMsgs totalReplaced totalExpected outputPath
    ∧ Msg.info s!"Saved to {outputPath}"
        ∈ printReintegrationSummary totalReplaced outputPath := by
  refine ⟨?_, rfl, ?_, ?_⟩
  · by_cases h : totalReplaced = totalExpected <;>
      simp [reintegrateSummaryMsgs, isWarning, h]
  · simp [reintegrateSummaryMsgs]
  · simp [printReintegrationSummary]

/-! ### Aggregate-level text replacement (`reintegrator.py:56-161`, C7) -/

/-- The run-level font properties that `replace_text_preserve_formatting`
saves and restores: `name`, `size`, `bold`, `italic`, `underline`,
`color_rgb` (`reintegrator.py:80-118`).  A `none` field models an unset
property / an absent colour type. -/
structure RFont where
  name : Option String
  size : Option Nat
  bold : Option Bool
  italic : Option Bool
  underline : Option Bool
  colorRgb : Option Nat
deriving DecidableEq, Repr

/-- The default (all unset) font of a freshly created run. -/
def noFont : RFont := ⟨none, none, none, none, none, none⟩

/-- A formatting run of a text frame. -/
structure PRun where
  text : String
  font : RFont
deriving DecidableEq, Repr

/-- A python-pptx text frame: a list of paragraphs, each a list of runs. -/
structure TFrame where
  paragraphs : List (List PRun)
deriving DecidableEq, Repr

/-- Split a character list at every occurrence of `c` (the pieces between
separators, in order; `n` separators give `n + 1` pieces). -/
def splitOnChar (c : Char) : List Char → List (List Char)
  | [] => [[]]
  | x :: xs =>
    if x = c then [] :: splitOnChar c xs
    else
      match splitOnChar c xs with
      | [] => [[x]]
      | y :: ys => (x :: y) :: ys

/-- The lines of a string (split at every newline character). -/
def splitLines (s : String) : List String :=
  (splitOnChar (Char.ofNat 10) s.data).map (fun cs => String.mk cs)

/-- Modelled from the python-pptx library (an opaque collaborator per the
spec): the `TextFrame.text` setter replaces the frame's entire content —
one paragraph per line of the assigned string, each holding a single fresh
run with default formatting.  Existing runs are discarded, never reused. -/
def tfSetText (s : String) : TFrame :=
  ⟨(splitLines s).map (fun line => [⟨line, noFont⟩])⟩

/-- Python truthiness of the saved `name` (`if saved_font['name']:`,
`reintegrator.py:128`): a present, non-empty string. -/
def truthyStr : Option String → Bool
  | some s => s ≠ ""
  | none => false

/-- Python truthiness of the saved `size` / `color_rgb`
(`reintegrator.py:134`, `158`): a present, non-zero value. -/
def truthyNat : Option Nat → Bool
  | some n => n ≠ 0
  | none => false

/-- `reintegrator.py:123-161`: re-apply the saved font properties to the
first run of the rewritten frame (`text_frame.paragraphs[0].runs[0]`), when
that run exists — `name`, `size`, `color_rgb` only when truthy, `bold`,
`italic`, `underline` when `is not None`. -/
def applySavedFont (tf : TFrame) (saved : RFont) : TFrame :=
  match tf.paragraphs with
  | [] => tf
  | p :: ps =>
    match p with
    | [] => tf
    | r :: rs =>
      let f0 := r.font
      let f1 := if truthyStr saved.name then { f0 with name := saved.name } else f0
      let f2 := if truthyNat saved.size then { f1 with size := saved.size } else f1
      let f3 := if saved.bold.isSome then { f2 with bold := saved.bold } else f2
      let f4 := if saved.italic.isSome then { f3 with italic := saved.italic } else f3
      let f5 := if saved.underline.isSome then { f4 with underline := saved.underline } else f4
      let f6 := if truthyNat saved.colorRgb then { f5 with colorRgb := saved.colorRgb } else f5
      ⟨(⟨r.text, f6⟩ :: rs) :: ps⟩

/-- `replace_text_preserve_formatting(text_frame, new_text)`
(`reintegrator.py:56-161`): when the frame has no paragraph or the first
paragraph has no run, just assign `text_frame.text = new_text`; otherwise
save the first run's font, assign `text_frame.text = new_text` (wiping all
runs), and re-apply the saved font to the new first run. -/
def replace_text_preserve_formatting (tf : TFrame) (newText : String) : TFrame :=
  match tf.paragraphs with
  | [] => tfSetText newText
  | p0 :: _ =>
    match p0 with
    | [] => tfSetText newText
    | firstRun :: _ => applySavedFont (tfSetText newText) firstRun.font

/-- All run texts of a frame, in order. -/
def runTexts (tf : TFrame) : List String :=
  (tf.paragraphs.map (fun p => p.map (fun r => r.text))).flatten

/-- Number of runs in a frame. -/
def runCount (tf : TFrame) : Nat :=
  (tf.paragraphs.map (fun p => p.length)).sum

theorem flatten_map_singleton {α β : Type} (f : α → β) (l : List α) :
    (l.map (fun x => [f x])).flatten = l.map f := by
  induction l with
  | nil => rfl
  | cons x xs ih => simp [ih]

theorem applySavedFont_runTexts (tf : TFrame) (saved : RFont) :
    runTexts (applySavedFont tf saved) = runTexts tf := by
  obtain ⟨ps⟩ := tf
  cases ps with
  | nil => rfl
  | cons p ps =>
    cases p with
    | nil => rfl
    | cons r rs => simp [applySavedFont, runTexts]

theorem applySavedFont_runCount (tf : TFrame) (saved : RFont) :
    runCount (applySavedFont tf saved) = runCount tf := by
  obtain ⟨ps⟩ := tf
  cases ps with
  | nil => rfl
  | cons p ps =>
    cases p with
    | nil => rfl
    | cons r rs => simp [applySavedFont, runCount]

theorem tfSetText_runTexts (s : String) :
    runTexts (tfSetText s) = splitLines s := by
  simp only [runTexts, tfSetText, List.map_map]
  rw [show ((fun p => List.map (fun r => PRun.text r) p) ∘ fun line => [(⟨line, noFont⟩ : PRun)])
      = fun line => [line] from rfl]
  rw [flatten_map_singleton (fun line => line) (splitLines s)]
  simp

theorem tfSetText_runCount (s : String) :
    runCount (tfSetText s) = (splitLines s).length := by
  simp only [runCount, tfSetText, List.map_map]
  rw [show ((fun p : List PRun => p.length) ∘ fun line => [(⟨line, noFont⟩ : PRun)])
      = fun line => 1 from rfl]
  simp

/-- C7 counterexample: a text frame holding one paragraph with two runs
("Hello" with explicit formatting, "World!") rewritten with the aggregate
string "HolaMundo" ends with a single run — the run count drops from 2 to 1,
so runs are not reused and no proportional per-run redistribution happens. -/
theorem c7_run_count_counterexample :
    runCount (replace_text_preserve_formatting
        ⟨[[⟨"Hello", ⟨some "Arial", some 18, some true, none, none, some 255⟩⟩,
           ⟨"World!", noFont⟩]]⟩ "HolaMundo") = 1
    ∧ runCount (⟨[[⟨"Hello", ⟨some "Arial", some 18, some true, none, none, some 255⟩⟩,
           ⟨"World!", noFont⟩]]⟩ : TFrame) = 2 := by
  constructor <;> rfl

/-- C7 amended: in aggregate-level writing mode the translated string is not
redistributed over the existing runs — `replace_text_preserve_formatting`
replaces the frame's whole content with fresh runs, one per line of the new
text (a single run for newline-free text), re-applying only the saved font of
the old first run; the resulting run texts and run count depend only on the
new text, never on the original run lengths or run count. -/
theorem c7_aggregate_replacement (tf : TFrame) (newText : String) :
    runTexts (replace_text_preserve_formatting tf newText) = splitLines newText
    ∧ runCount (replace_text_preserve_formatting tf newText)
        = (splitLines newText).length := by
  obtain ⟨ps⟩ := tf
  cases ps with
  | nil =>
    exact ⟨tfSetText_runTexts newText, tfSetText_runCount newText⟩
  | cons p ps =>
    cases p with
    | nil =>
      exact ⟨tfSetText_runTexts newText, tfSetText_runCount newText⟩
    | cons r rs =>
      constructor
      · rw [show replace_text_preserve_formatting ⟨(r :: rs) :: ps⟩ newText
            = applySavedFont (tfSetText newText) r.font from rfl]
        rw [applySavedFont_runTexts, tfSetText_runTexts]
      · rw [show replace_text_preserve_formatting ⟨(r :: rs) :: ps⟩ newText
            = applySavedFont (tfSetText newText) r.font from rfl]
        rw [applySavedFont_runCount, tfSetText_runCount]

/-! ### Run-level PPTX extraction (`pptx_handler.py`) -/

/-- A python-pptx shape as `extract_text_from_shape` probes it: an optional
text frame (paragraphs of runs, a run being its text string), an optional
table (rows of cells, a cell holding paragraphs of runs), and the member
shapes of a group (empty for a non-group shape).  The three `hasattr` checks
of `pptx_handler.py:22-40` are independent, so all three components coexist
in the model. -/
inductive PShape where
  | mk (textFrame : Option (List (List String)))
       (table : Option (List (List (List (List String)))))
       (subShapes : List PShape)

/-- `if run.text:` — the runs of one paragraph kept by extraction
(`pptx_handler.py:25`, `docx_handler.py:81`): non-empty text, no trimming. -/
def keptRuns (runs : List String) : List String :=
  runs.filter (fun t => t ≠ "")

/-- `for paragraph in text_frame.paragraphs: for run in paragraph.runs: ...`
(`pptx_handler.py:23-26`). -/
def tfExtract (paras : List (List String)) : List String :=
  (paras.map keptRuns).flatten

/-- One table row: `for cell in row.cells: for paragraph in
cell.text_frame.paragraphs: ...` (`pptx_handler.py:31-35`). -/
def cellsExtract (cells : List (List (List String))) : List String :=
  (cells.map tfExtract).flatten

/-- `for row in shape.table.rows: ...` (`pptx_handler.py:30`). -/
def tableExtract (rows : List (List (List (List String)))) : List String :=
  (rows.map cellsExtract).flatten

mutual
/-- `extract_text_from_shape(shape)` (`pptx_handler.py:10-42`): text-frame
runs, then table-cell runs, then grouped sub-shapes recursively. -/
def extract_text_from_shape : PShape → List String
  | .mk tf tbl subs =>
    (match tf with
     | none => []
     | some paras => tfExtract paras)
      ++ (match tbl with
          | none => []
          | some rows => tableExtract rows)
      ++ extractShapes subs

/-- `for sub_shape in shape.shapes: texts.extend(...)`
(`pptx_handler.py:38-40`), also one slide's `for shape in slide.shapes`
loop (`pptx_handler.py:135-137`). -/
def extractShapes : List PShape → List String
  | [] => []
  | s :: ss => extract_text_from_shape s ++ extractShapes ss
end

/-- `PPTXHandler.extract_text` (`pptx_handler.py:118-142`): one `JUnit` per
slide — always appended, even when no text was found — holding the slide's
extracted run texts in shape order. -/
def pptxExtractText (slides : List (List PShape)) : List JUnit :=
  slides.map (fun shapes => ⟨extractShapes shapes⟩)

/-! ### The positional `TextIterator`
(`pptx_handler.py:45-70`, `docx_handler.py:10-35`) -/

/-- Iterator state: the translated units (slides / paragraphs) plus the
unit cursor (`current_slide` / `current_paragraph`) and the in-unit text
cursor (`current_text`). -/
structure IterSt where
  units : List JUnit
  currentUnit : Nat
  currentText : Nat
deriving DecidableEq, Repr

/-- `get_next` (`pptx_handler.py:53-65`): `None` once the unit cursor is past
the last unit or the text cursor past the unit's last text, else the next
text with the text cursor advanced. -/
def getNext (st : IterSt) : Option String × IterSt :=
  if h1 : st.currentUnit < st.units.length then
    let ts := (st.units.get ⟨st.currentUnit, h1⟩).texts
    if h2 : st.currentText < ts.length then
      (some (ts.get ⟨st.currentText, h2⟩), { st with currentText := st.currentText + 1 })
    else (none, st)
  else (none, st)

/-- `next_slide` / `next_paragraph` (`pptx_handler.py:67-70`): advance the
unit cursor, reset the text cursor. -/
def nextUnit (st : IterSt) : IterSt :=
  { st with currentUnit := st.currentUnit + 1, currentText := 0 }

/-- The texts still available in the current unit. -/
def avail (st : IterSt) : List String :=
  if h : st.currentUnit < st.units.length then
    ((st.units.get ⟨st.currentUnit, h⟩).texts).drop st.currentText
  else []

/-- Advance the text cursor by `n`. -/
def consume (st : IterSt) (n : Nat) : IterSt :=
  { st with currentText := st.currentText + n }

theorem consume_zero (st : IterSt) : consume st 0 = st := rfl

theorem consume_consume (st : IterSt) (m n : Nat) :
    consume (consume st m) n = consume st (m + n) := by
  simp [consume, Nat.add_assoc]

theorem getNext_of_avail (st : IterSt) (t : String) (ts : List String)
    (hav : avail st = t :: ts) :
    getNext st = (some t, consume st 1) ∧ avail (consume st 1) = ts := by
  unfold avail at hav
  by_cases h1 : st.currentUnit < st.units.length
  · rw [dif_pos h1] at hav
    have h2 : st.currentText < ((st.units.get ⟨st.currentUnit, h1⟩).texts).length := by
      by_contra hc
      rw [List.drop_eq_nil_of_le (by omega)] at hav
      exact List.noConfusion hav
    have hdrop := List.drop_eq_getElem_cons h2
    rw [hdrop] at hav
    injection hav with hhead htail
    constructor
    · unfold getNext
      rw [dif_pos h1]
      simp only [dif_pos h2]
      simp only [Prod.mk.injEq, Option.some.injEq]
      exact ⟨by simpa using hhead, rfl⟩
    · unfold avail
      rw [dif_pos (show (consume st 1).currentUnit < (consume st 1).units.length from h1)]
      exact htail
  · rw [dif_neg h1] at hav
    exact List.noConfusion hav

theorem avail_consume (st : IterSt) (xs rest : List String)
    (hav : avail st = xs ++ rest) :
    avail (consume st xs.length) = rest := by
  unfold avail at *
  by_cases h1 : st.currentUnit < st.units.length
  · rw [dif_pos h1] at hav
    have h1c : (consume st xs.length).currentUnit < (consume st xs.length).units.length := h1
    rw [dif_pos h1c]
    show ((st.units.get ⟨st.currentUnit, h1⟩).texts).drop (st.currentText + xs.length) = rest
    rw [← List.drop_drop, hav, List.drop_left]
  · rw [dif_neg h1] at hav
    rw [dif_neg
      (show ¬ (consume st xs.length).currentUnit < (consume st xs.length).units.length from h1)]
    have h2 := congrArg List.length hav
    simp only [List.length_append, List.length_nil] at h2
    have h3 : rest.length = 0 := by omega
    exact (List.length_eq_zero.mp h3).symm

/-! ### Run-level PPTX reintegration (`pptx_handler.py:73-181`) -/

/-- The run loop shared by both handlers
(`pptx_handler.py:87-93`, `docx_handler.py:50-57`):
`for run in runs: if run.text: t = it.get_next(); if t is not None:
run.text = t; count += 1`.  Returns the rewritten runs, the replace count,
and the advanced iterator. -/
def reintRuns : List String → IterSt → List String × Nat × IterSt
  | [], st => ([], 0, st)
  | r :: rs, st =>
    if r ≠ "" then
      match getNext st with
      | (some t, st1) =>
        let res := reintRuns rs st1
        (t :: res.1, res.2.1 + 1, res.2.2)
      | (none, st1) =>
        let res := reintRuns rs st1
        (r :: res.1, res.2.1, res.2.2)
    else
      let res := reintRuns rs st
      (r :: res.1, res.2.1, res.2.2)

/-- The text-frame paragraph loop (`pptx_handler.py:87`). -/
def reintParas : List (List String) → IterSt → List (List String) × Nat × IterSt
  | [], st => ([], 0, st)
  | p :: ps, st =>
    let res1 := reintRuns p st
    let res2 := reintParas ps res1.2.2
    (res1.1 :: res2.1, res1.2.1 + res2.2.1, res2.2.2)

/-- The cell loop of one table row (`pptx_handler.py:98-105`): each cell's
text-frame paragraphs are processed in turn. -/
def reintCells : List (List (List String)) → IterSt →
    List (List (List String)) × Nat × IterSt
  | [], st => ([], 0, st)
  | cell :: cs, st =>
    let res1 := reintParas cell st
    let res2 := reintCells cs res1.2.2
    (res1.1 :: res2.1, res1.2.1 + res2.2.1, res2.2.2)

/-- The row loop of a table (`pptx_handler.py:97`). -/
def reintRows : List (List (List (List String))) → IterSt →
    List (List (List (List String))) × Nat × IterSt
  | [], st => ([], 0, st)
  | row :: rows, st =>
    let res1 := reintCells row st
    let res2 := reintRows rows res1.2.2
    (res1.1 :: res2.1, res1.2.1 + res2.2.1, res2.2.2)

mutual
/-- `reintegrate_text_into_shape(shape, text_iterator)`
(`pptx_handler.py:73-112`): text-frame runs, then table-cell runs, then
grouped sub-shapes, mirroring the extraction order. -/
def reintegrate_text_into_shape : PShape → IterSt → PShape × Nat × IterSt
  | .mk tf tbl subs, st =>
    let rtf : Option (List (List String)) × Nat × IterSt :=
      match tf with
      | none => (none, 0, st)
      | some paras =>
        let res := reintParas paras st
        (some res.1, res.2.1, res.2.2)
    let rtbl : Option (List (List (List (List String)))) × Nat × IterSt :=
      match tbl with
      | none => (none, 0, rtf.2.2)
      | some rows =>
        let res := reintRows rows rtf.2.2
        (some res.1, res.2.1, res.2.2)
    let rsubs := reintShapes subs rtbl.2.2
    (.mk rtf.1 rtbl.1 rsubs.1, rtf.2.1 + rtbl.2.1 + rsubs.2.1, rsubs.2.2)

/-- The sub-shape loop (`pptx_handler.py:108-110`), also one slide's shape
loop (`pptx_handler.py:171-173`). -/
def reintShapes : List PShape → IterSt → List PShape × Nat × IterSt
  | [], st => ([], 0, st)
  | s :: ss, st =>
    let res1 := reintegrate_text_into_shape s st
    let res2 := reintShapes ss res1.2.2
    (res1.1 :: res2.1, res1.2.1 + res2.2.1, res2.2.2)
end

/-- The slide loop of `PPTXHandler.reintegrate_text`
(`pptx_handler.py:169-176`): process each slide's shapes, then
`text_iterator.next_slide()`. -/
def pptxReintSlides : List (List PShape) → IterSt →
    List (List PShape) × Nat × IterSt
  | [], st => ([], 0, st)
  | sl :: sls, st =>
    let res1 := reintShapes sl st
    let res2 := pptxReintSlides sls (nextUnit res1.2.2)
    (res1.1 :: res2.1, res1.2.1 + res2.2.1, res2.2.2)

/-- `PPTXHandler.reintegrate_text(pptx_path, translated_data, output_path)`
(`pptx_handler.py:153-181`): walk the presentation with a fresh
`TextIterator` over the translated units and return the rewritten slides and
the total replaced count. -/
def pptxReintegrateText (slides : List (List PShape)) (translated : List JUnit) :
    List (List PShape) × Nat :=
  let res := pptxReintSlides slides ⟨translated, 0, 0⟩
  (res.1, res.2.1)

/-- Total number of fragments of a unit list. -/
def totalFrags (units : List JUnit) : Nat :=
  (units.map (fun u => u.texts.length)).sum

/-! ### Identity round-trip lemmas (C2) -/

theorem reintRuns_id (rs : List String) : ∀ (st : IterSt) (rest : List String),
    avail st = keptRuns rs ++ rest →
    reintRuns rs st = (rs, (keptRuns rs).length, consume st (keptRuns rs).length) := by
  induction rs with
  | nil =>
    intro st rest hav
    simp [reintRuns, keptRuns, consume_zero]
  | cons r rs ih =>
    intro st rest hav
    by_cases hr : r = ""
    · subst hr
      have hk : keptRuns ("" :: rs) = keptRuns rs := by simp [keptRuns]
      rw [hk] at hav ⊢
      have hstep : reintRuns ("" :: rs) st
          = ("" :: (reintRuns rs st).1, (reintRuns rs st).2.1, (reintRuns rs st).2.2) := by
        simp [reintRuns]
      rw [hstep, ih st rest hav]
    · have hk : keptRuns (r :: rs) = r :: keptRuns rs := by simp [keptRuns, hr]
      rw [hk] at hav
      rw [List.cons_append] at hav
      obtain ⟨hg, hav1⟩ := getNext_of_avail st r (keptRuns rs ++ rest) hav
      have hstep : reintRuns (r :: rs) st
          = (r :: (reintRuns rs (consume st 1)).1,
             (reintRuns rs (consume st 1)).2.1 + 1,
             (reintRuns rs (consume st 1)).2.2) := by
        simp [reintRuns, hr, hg]
      rw [hstep, ih (consume st 1) rest hav1, hk]
      simp [consume_consume, Nat.add_comm]

theorem reintParas_id (paras : List (List String)) : ∀ (st : IterSt) (rest : List String),
    avail st = tfExtract paras ++ rest →
    reintParas paras st
      = (paras, (tfExtract paras).length, consume st (tfExtract paras).length) := by
  induction paras with
  | nil =>
    intro st rest hav
    simp [reintParas, tfExtract, consume_zero]
  | cons p ps ih =>
    intro st rest hav
    have hx : tfExtract (p :: ps) = keptRuns p ++ tfExtract ps := by simp [tfExtract]
    rw [hx] at hav ⊢
    rw [List.append_assoc] at hav
    have h1 := reintRuns_id p st (tfExtract ps ++ rest) hav
    have hav1 := avail_consume st (keptRuns p) (tfExtract ps ++ rest) hav
    have h2 := ih (consume st (keptRuns p).length) rest hav1
    simp only [reintParas]
    rw [h1]
    simp only []
    rw [h2]
    simp [consume_consume, List.length_append]

theorem reintCells_id (cells : List (List (List String))) :
    ∀ (st : IterSt) (rest : List String),
    avail st = cellsExtract cells ++ rest →
    reintCells cells st
      = (cells, (cellsExtract cells).length, consume st (cellsExtract cells).length) := by
  induction cells with
  | nil =>
    intro st rest hav
    simp [reintCells, cellsExtract, consume_zero]
  | cons cell cs ih =>
    intro st rest hav
    have hx : cellsExtract (cell :: cs) = tfExtract cell ++ cellsExtract cs := by
      simp [cellsExtract]
    rw [hx] at hav ⊢
    rw [List.append_assoc] at hav
    have h1 := reintParas_id cell st (cellsExtract cs ++ rest) hav
    have hav1 := avail_consume st (tfExtract cell) (cellsExtract cs ++ rest) hav
    have h2 := ih (consume st (tfExtract cell).length) rest hav1
    simp only [reintCells]
    rw [h1]
    simp only []
    rw [h2]
    simp [consume_consume, List.length_append]

theorem reintRows_id (rows : List (List (List (List String)))) :
    ∀ (st : IterSt) (rest : List String),
    avail st = tableExtract rows ++ rest →
    reintRows rows st
      = (rows, (tableExtract rows).length, consume st (tableExtract rows).length) := by
  induction rows with
  | nil =>
    intro st rest hav
    simp [reintRows, tableExtract, consume_zero]
  | cons row rows ih =>
    intro st rest hav
    have hx : tableExtract (row :: rows) = cellsExtract row ++ tableExtract rows := by
      simp [tableExtract]
    rw [hx] at hav ⊢
    rw [List.append_assoc] at hav
    have h1 := reintCells_id row st (tableExtract rows ++ rest) hav
    have hav1 := avail_consume st (cellsExtract row) (tableExtract rows ++ rest) hav
    have h2 := ih (consume st (cellsExtract row).length) rest hav1
    simp only [reintRows]
    rw [h1]
    simp only []
    rw [h2]
    simp [consume_consume, List.length_append]

mutual
theorem reintegrate_text_into_shape_id (s : PShape) :
    ∀ (st : IterSt) (rest : List String),
    avail st = extract_text_from_shape s ++ rest →
    reintegrate_text_into_shape s st
      = (s, (extract_text_from_shape s).length,
         consume st (extract_text_from_shape s).length) := by
  cases s with
  | mk tf tbl subs =>
    intro st rest hav
    cases tf with
    | none =>
      cases tbl with
      | none =>
        simp only [extract_text_from_shape, List.nil_append] at hav ⊢
        have h3 := reintShapes_id subs st rest hav
        simp only [reintegrate_text_into_shape]
        rw [h3]
        simp
      | some rows =>
        simp only [extract_text_from_shape, List.nil_append] at hav ⊢
        rw [List.append_assoc] at hav
        have h2 := reintRows_id rows st (extractShapes subs ++ rest) hav
        have hav2 := avail_consume st (tableExtract rows) (extractShapes subs ++ rest) hav
        have h3 := reintShapes_id subs (consume st (tableExtract rows).length) rest hav2
        simp only [reintegrate_text_into_shape]
        rw [h2]
        simp only []
        rw [h3]
        simp [consume_consume, List.length_append]
    | some paras =>
      cases tbl with
      | none =>
        simp only [extract_text_from_shape, List.append_nil] at hav ⊢
        rw [List.append_assoc] at hav
        have h1 := reintParas_id paras st (extractShapes subs ++ rest) hav
        have hav1 := avail_consume st (tfExtract paras) (extractShapes subs ++ rest) hav
        have h3 := reintShapes_id subs (consume st (tfExtract paras).length) rest hav1
        simp only [reintegrate_text_into_shape]
        rw [h1]
        simp only []
        rw [h3]
        simp [consume_consume, List.length_append]
      | some rows =>
        simp only [extract_text_from_shape] at hav ⊢
        simp only [List.append_assoc] at hav
        have h1 := reintParas_id paras st
          (tableExtract rows ++ (extractShapes subs ++ rest)) hav
        have hav1 := avail_consume st (tfExtract paras)
          (tableExtract rows ++ (extractShapes subs ++ rest)) hav
        have h2 := reintRows_id rows (consume st (tfExtract paras).length)
          (extractShapes subs ++ rest) hav1
        have hav2 := avail_consume (consume st (tfExtract paras).length)
          (tableExtract rows) (extractShapes subs ++ rest) hav1
        have h3 := reintShapes_id subs
          (consume (consume st (tfExtract paras).length) (tableExtract rows).length)
          rest hav2
        simp only [reintegrate_text_into_shape]
        rw [h1]
        simp only []
        rw [h2]
        simp only []
        rw [h3]
        simp [consume_consume, List.length_append, Nat.add_assoc]

theorem reintShapes_id (ss : List PShape) :
    ∀ (st : IterSt) (rest : List String),
    avail st = extractShapes ss ++ rest →
    reintShapes ss st
      = (ss, (extractShapes ss).length, consume st (extractShapes ss).length) := by
  cases ss with
  | nil =>
    intro st rest hav
    simp [reintShapes, extractShapes, consume_zero]
  | cons s ss =>
    intro st rest hav
    simp only [extractShapes] at hav ⊢
    rw [List.append_assoc] at hav
    have h1 := reintegrate_text_into_shape_id s st (extractShapes ss ++ rest) hav
    have hav1 := avail_consume st (extract_text_from_shape s) (extractShapes ss ++ rest) hav
    have h2 := reintShapes_id ss (consume st (extract_text_from_shape s).length) rest hav1
    simp only [reintShapes]
    rw [h1]
    simp only []
    rw [h2]
    simp [consume_consume, List.length_append]
end

theorem totalFrags_cons (u : JUnit) (us : List JUnit) :
    totalFrags (u :: us) = u.texts.length + totalFrags us := by
  simp [totalFrags]

theorem totalFrags_append (a b : List JUnit) :
    totalFrags (a ++ b) = totalFrags a + totalFrags b := by
  simp [totalFrags]

theorem drop_add_of_drop_eq {α : Type} (l : List α) (cu : Nat) (xs ys : List α)
    (h : l.drop cu = xs ++ ys) : l.drop (cu + xs.length) = ys := by
  have h2 : (l.drop cu).drop xs.length = ys := by rw [h, List.drop_left]
  rw [List.drop_drop] at h2
  simpa [Nat.add_comm] using h2

theorem pptxReintSlides_id (slides : List (List PShape)) :
    ∀ (units : List JUnit) (cu : Nat) (restUnits : List JUnit),
    units.drop cu = pptxExtractText slides ++ restUnits →
    pptxReintSlides slides ⟨units, cu, 0⟩
      = (slides, totalFrags (pptxExtractText slides),
         ⟨units, cu + slides.length, 0⟩) := by
  induction slides with
  | nil =>
    intro units cu restUnits hdrop
    simp [pptxReintSlides, pptxExtractText, totalFrags]
  | cons sl sls ih =>
    intro units cu restUnits hdrop
    have hx : pptxExtractText (sl :: sls)
        = (⟨extractShapes sl⟩ : JUnit) :: pptxExtractText sls := by
      simp [pptxExtractText]
    rw [hx] at hdrop
    have hcu : cu < units.length := by
      by_contra hc
      rw [List.drop_eq_nil_of_le (by omega)] at hdrop
      exact List.noConfusion hdrop
    have hdropc := List.drop_eq_getElem_cons hcu
    rw [hdropc] at hdrop
    injection hdrop with hhead htail
    have hav : avail ⟨units, cu, 0⟩ = extractShapes sl ++ [] := by
      show (if h : cu < units.length then ((units.get ⟨cu, h⟩).texts).drop 0 else []) = _
      rw [dif_pos hcu, List.drop_zero, List.append_nil]
      rw [show units.get ⟨cu, hcu⟩ = (⟨extractShapes sl⟩ : JUnit) from hhead]
    have h1 := reintShapes_id sl ⟨units, cu, 0⟩ [] hav
    have h2 := ih units (cu + 1) restUnits htail
    simp only [pptxReintSlides]
    rw [h1]
    simp only []
    rw [show nextUnit (consume ⟨units, cu, 0⟩ (extractShapes sl).length)
        = (⟨units, cu + 1, 0⟩ : IterSt) from rfl]
    rw [h2, hx]
    rw [show cu + 1 + sls.length = cu + (sls.length + 1) from by omega]
    simp [totalFrags_cons]

/-! ### DOCX extraction and reintegration (`docx_handler.py`) -/

/-- A python-docx document as the handler walks it: body paragraphs (each a
list of run texts) and tables (rows of cells, each cell holding its own
paragraphs of runs). -/
structure DocxDoc where
  paragraphs : List (List String)
  tables : List (List (List (List (List String))))

/-- One extracted DOCX unit: a paragraph entry holding its non-empty run
texts (`docx_handler.py:76-85`, `91-96`). -/
def docxParaUnit (runs : List String) : JUnit := ⟨keptRuns runs⟩

/-- The units contributed by one table cell (`for paragraph in
cell.paragraphs`, `docx_handler.py:91`). -/
def docxCellUnits (cell : List (List String)) : List JUnit :=
  cell.map docxParaUnit

/-- The units contributed by one table row (`for cell in row.cells`). -/
def docxRowUnits (row : List (List (List String))) : List JUnit :=
  (row.map docxCellUnits).flatten

/-- The units contributed by one table (`for row in table.rows`). -/
def docxTableUnits (tbl : List (List (List (List String)))) : List JUnit :=
  (tbl.map docxRowUnits).flatten

/-- The units contributed by all tables (`for table in document.tables`,
`docx_handler.py:88-96`). -/
def docxTablesUnits (tbls : List (List (List (List (List String))))) : List JUnit :=
  (tbls.map docxTableUnits).flatten

/-- `DOCXHandler.extract_text` (`docx_handler.py:63-98`): one unit per body
paragraph (in order, empty ones included), then one unit per table-cell
paragraph, appended after all body-paragraph units. -/
def docxExtractText (d : DocxDoc) : List JUnit :=
  d.paragraphs.map docxParaUnit ++ docxTablesUnits d.tables

/-- The body-paragraph loop of `DOCXHandler.reintegrate_text`
(`docx_handler.py:128-131`): `replace_runs_with_text_list` on each
paragraph, then `text_iterator.next_paragraph()` — also the per-cell
paragraph loop (`docx_handler.py:137-140`). -/
def docxReintParas : List (List String) → IterSt → List (List String) × Nat × IterSt
  | [], st => ([], 0, st)
  | p :: ps, st =>
    let res1 := reintRuns p st
    let res2 := docxReintParas ps (nextUnit res1.2.2)
    (res1.1 :: res2.1, res1.2.1 + res2.2.1, res2.2.2)

/-- The cell loop of one table row (`docx_handler.py:136`). -/
def docxReintCells : List (List (List String)) → IterSt →
    List (List (List String)) × Nat × IterSt
  | [], st => ([], 0, st)
  | cell :: cs, st =>
    let res1 := docxReintParas cell st
    let res2 := docxReintCells cs res1.2.2
    (res1.1 :: res2.1, res1.2.1 + res2.2.1, res2.2.2)

/-- The row loop of one table (`docx_handler.py:135`). -/
def docxReintRows : List (List (List (List String))) → IterSt →
    List (List (List (List String))) × Nat × IterSt
  | [], st => ([], 0, st)
  | row :: rows, st =>
    let res1 := docxReintCells row st
    let res2 := docxReintRows rows res1.2.2
    (res1.1 :: res2.1, res1.2.1 + res2.2.1, res2.2.2)

/-- The table loop (`docx_handler.py:134`). -/
def docxReintTables : List (List (List (List (List String)))) → IterSt →
    List (List (List (List (List String)))) × Nat × IterSt
  | [], st => ([], 0, st)
  | tbl :: tbls, st =>
    let res1 := docxReintRows tbl st
    let res2 := docxReintTables tbls res1.2.2
    (res1.1 :: res2.1, res1.2.1 + res2.2.1, res2.2.2)

/-- `DOCXHandler.reintegrate_text` (`docx_handler.py:109-145`): body
paragraphs first, then table cells, threading one `TextIterator` over the
translated units; returns the rewritten document and the replaced count. -/
def docxReintegrateText (d : DocxDoc) (translated : List JUnit) : DocxDoc × Nat :=
  let res1 := docxReintParas d.paragraphs ⟨translated, 0, 0⟩
  let res2 := docxReintTables d.tables res1.2.2
  (⟨res1.1, res2.1⟩, res1.2.1 + res2.2.1)

theorem docxReintParas_id (ps : List (List String)) :
    ∀ (units : List JUnit) (cu : Nat) (restUnits : List JUnit),
    units.drop cu = ps.map docxParaUnit ++ restUnits →
    docxReintParas ps ⟨units, cu, 0⟩
      = (ps, totalFrags (ps.map docxParaUnit), ⟨units, cu + ps.length, 0⟩) := by
  induction ps with
  | nil =>
    intro units cu restUnits hdrop
    simp [docxReintParas, totalFrags]
  | cons p ps ih =>
    intro units cu restUnits hdrop
    rw [List.map_cons] at hdrop
    have hcu : cu < units.length := by
      by_contra hc
      rw [List.drop_eq_nil_of_le (by omega)] at hdrop
      exact List.noConfusion hdrop
    have hdropc := List.drop_eq_getElem_cons hcu
    rw [hdropc] at hdrop
    injection hdrop with hhead htail
    have hav : avail ⟨units, cu, 0⟩ = keptRuns p ++ [] := by
      show (if h : cu < units.length then ((units.get ⟨cu, h⟩).texts).drop 0 else []) = _
      rw [dif_pos hcu, List.drop_zero, List.append_nil]
      rw [show units.get ⟨cu, hcu⟩ = docxParaUnit p from hhead]
      rfl
    have h1 := reintRuns_id p ⟨units, cu, 0⟩ [] hav
    have h2 := ih units (cu + 1) restUnits htail
    simp only [docxReintParas]
    rw [h1]
    simp only []
    rw [show nextUnit (consume ⟨units, cu, 0⟩ (keptRuns p).length)
        = (⟨units, cu + 1, 0⟩ : IterSt) from rfl]
    rw [h2, List.map_cons]
    rw [show cu + 1 + ps.length = cu + (ps.length + 1) from by omega]
    simp [totalFrags_cons, docxParaUnit]

theorem docxReintCells_id (cells : List (List (List String))) :
    ∀ (units : List JUnit) (cu : Nat) (restUnits : List JUnit),
    units.drop cu = docxRowUnits cells ++ restUnits →
    docxReintCells cells ⟨units, cu, 0⟩
      = (cells, totalFrags (docxRowUnits cells),
         ⟨units, cu + (docxRowUnits cells).length, 0⟩) := by
  induction cells with
  | nil =>
    intro units cu restUnits hdrop
    simp [docxReintCells, docxRowUnits, totalFrags]
  | cons cell cs ih =>
    intro units cu restUnits hdrop
    have hx : docxRowUnits (cell :: cs) = docxCellUnits cell ++ docxRowUnits cs := by
      simp [docxRowUnits]
    rw [hx] at hdrop
    rw [List.append_assoc] at hdrop
    have h1 := docxReintParas_id cell units cu (docxRowUnits cs ++ restUnits) hdrop
    have hdrop1 := drop_add_of_drop_eq units cu (docxCellUnits cell)
      (docxRowUnits cs ++ restUnits) hdrop
    rw [show (docxCellUnits cell).length = cell.length by simp [docxCellUnits]] at hdrop1
    have h2 := ih units (cu + cell.length) restUnits hdrop1
    simp only [docxReintCells]
    rw [h1]
    simp only []
    rw [h2, hx]
    rw [show cu + cell.length + (docxRowUnits cs).length
        = cu + (docxCellUnits cell ++ docxRowUnits cs).length from by
      simp [docxCellUnits]
      omega]
    simp [totalFrags_append, docxCellUnits]

theorem docxReintRows_id (rows : List (List (List (List String)))) :
    ∀ (units : List JUnit) (cu : Nat) (restUnits : List JUnit),
    units.drop cu = docxTableUnits rows ++ restUnits →
    docxReintRows rows ⟨units, cu, 0⟩
      = (rows, totalFrags (docxTableUnits rows),
         ⟨units, cu + (docxTableUnits rows).length, 0⟩) := by
  induction rows with
  | nil =>
    intro units cu restUnits hdrop
    simp [docxReintRows, docxTableUnits, totalFrags]
  | cons row rows ih =>
    intro units cu restUnits hdrop
    have hx : docxTableUnits (row :: rows) = docxRowUnits row ++ docxTableUnits rows := by
      simp [docxTableUnits]
    rw [hx] at hdrop
    rw [List.append_assoc] at hdrop
    have h1 := docxReintCells_id row units cu (docxTableUnits rows ++ restUnits) hdrop
    have hdrop1 := drop_add_of_drop_eq units cu (docxRowUnits row)
      (docxTableUnits rows ++ restUnits) hdrop
    have h2 := ih units (cu + (docxRowUnits row).length) restUnits hdrop1
    simp only [docxReintRows]
    rw [h1]
    simp only []
    rw [h2, hx]
    rw [show cu + (docxRowUnits row).length + (docxTableUnits rows).length
        = cu + (docxRowUnits row ++ docxTableUnits rows).length from by
      simp
      omega]
    simp [totalFrags_append]

theorem docxReintTables_id (tbls : List (List (List (List (List String))))) :
    ∀ (units : List JUnit) (cu : Nat) (restUnits : List JUnit),
    units.drop cu = docxTablesUnits tbls ++ restUnits →
    docxReintTables tbls ⟨units, cu, 0⟩
      = (tbls, totalFrags (docxTablesUnits tbls),
         ⟨units, cu + (docxTablesUnits tbls).length, 0⟩) := by
  induction tbls with
  | nil =>
    intro units cu restUnits hdrop
    simp [docxReintTables, docxTablesUnits, totalFrags]
  | cons tbl tbls ih =>
    intro units cu restUnits hdrop
    have hx : docxTablesUnits (tbl :: tbls) = docxTableUnits tbl ++ docxTablesUnits tbls := by
      simp [docxTablesUnits]
    rw [hx] at hdrop
    rw [List.append_assoc] at hdrop
    have h1 := docxReintRows_id tbl units cu (docxTablesUnits tbls ++ restUnits) hdrop
    have hdrop1 := drop_add_of_drop_eq units cu (docxTableUnits tbl)
      (docxTablesUnits tbls ++ restUnits) hdrop
    have h2 := ih units (cu + (docxTableUnits tbl).length) restUnits hdrop1
    simp only [docxReintTables]
    rw [h1]
    simp only []
    rw [h2, hx]
    rw [show cu + (docxTableUnits tbl).length + (docxTablesUnits tbls).length
        = cu + (docxTableUnits tbl ++ docxTablesUnits tbls).length from by
      simp
      omega]
    simp [totalFrags_append]

/-- C2: for every document (PPTX: slides of shapes; DOCX: body paragraphs
and tables), extracting with the walker and reintegrating the extracted
structure unchanged (the identity translation) returns the document with
every run text unchanged, and the replaced count equals the total number of
extracted fragments. -/
theorem c2_identity_roundtrip :
    (∀ slides : List (List PShape),
      pptxReintegrateText slides (pptxExtractText slides)
        = (slides, totalFrags (pptxExtractText slides)))
    ∧ (∀ d : DocxDoc,
      docxReintegrateText d (docxExtractText d)
        = (d, totalFrags (docxExtractText d))) := by
  constructor
  · intro slides
    have h := pptxReintSlides_id slides (pptxExtractText slides) 0 [] (by simp)
    simp only [pptxReintegrateText]
    rw [h]
  · intro d
    have h1 := docxReintParas_id d.paragraphs (docxExtractText d) 0
      (docxTablesUnits d.tables) (by simp [docxExtractText])
    rw [Nat.zero_add] at h1
    have h2 := docxReintTables_id d.tables (docxExtractText d) d.paragraphs.length []
      (by
        rw [show docxExtractText d
            = d.paragraphs.map docxParaUnit ++ docxTablesUnits d.tables from rfl]
        rw [show d.paragraphs.length = (d.paragraphs.map docxParaUnit).length by simp]
        rw [List.drop_left, List.append_nil])
    simp only [docxReintegrateText]
    rw [h1]
    simp only []
    rw [h2]
    simp [docxExtractText, totalFrags_append]

/-! ### Walker unit/fragment characterisation (C8) -/

/-- All run texts below one table, unfiltered, in traversal order
(rows, then cells, then cell paragraphs, then runs). -/
def allRunsTable (rows : List (List (List (List String)))) : List String :=
  (rows.map (fun cells => (cells.map (fun cell => cell.flatten)).flatten)).flatten

mutual
/-- Every run text a shape holds, unfiltered, in the traversal order of
`extract_text_from_shape`. -/
def allRunsShape : PShape → List String
  | .mk tf tbl subs =>
    (match tf with
     | none => []
     | some paras => paras.flatten)
      ++ (match tbl with
          | none => []
          | some rows => allRunsTable rows)
      ++ allRunsShapes subs

/-- Every run text a shape list holds, unfiltered, in order. -/
def allRunsShapes : List PShape → List String
  | [] => []
  | s :: ss => allRunsShape s ++ allRunsShapes ss
end

theorem filter_flatten {α : Type} (p : α → Bool) (L : List (List α)) :
    (L.flatten).filter p = (L.map (fun l => l.filter p)).flatten := by
  induction L with
  | nil => rfl
  | cons l ls ih => simp [List.filter_append, ih]

theorem tfExtract_eq_filter (paras : List (List String)) :
    tfExtract paras = (paras.flatten).filter (fun t => t ≠ "") := by
  rw [filter_flatten]
  rfl

theorem cellsExtract_eq_filter (cells : List (List (List String))) :
    cellsExtract cells
      = ((cells.map (fun cell => cell.flatten)).flatten).filter (fun t => t ≠ "") := by
  unfold cellsExtract
  rw [List.map_congr_left (fun cell _ => tfExtract_eq_filter cell)]
  rw [filter_flatten, List.map_map]
  rfl

theorem tableExtract_eq_filter (rows : List (List (List (List String)))) :
    tableExtract rows = (allRunsTable rows).filter (fun t => t ≠ "") := by
  unfold tableExtract allRunsTable
  rw [List.map_congr_left (fun cells _ => cellsExtract_eq_filter cells)]
  rw [filter_flatten, List.map_map]
  rfl

mutual
theorem extract_eq_filter_allRuns (s : PShape) :
    extract_text_from_shape s = (allRunsShape s).filter (fun t => t ≠ "") := by
  cases s with
  | mk tf tbl subs =>
    have h3 := extractShapes_eq_filter_allRuns subs
    cases tf with
    | none =>
      cases tbl with
      | none =>
        simp [extract_text_from_shape, allRunsShape, h3]
      | some rows =>
        simp [extract_text_from_shape, allRunsShape, List.filter_append,
          tableExtract_eq_filter, h3]
    | some paras =>
      cases tbl with
      | none =>
        simp [extract_text_from_shape, allRunsShape, List.filter_append,
          tfExtract_eq_filter, h3]
      | some rows =>
        simp [extract_text_from_shape, allRunsShape, List.filter_append,
          tfExtract_eq_filter, tableExtract_eq_filter, h3]

theorem extractShapes_eq_filter_allRuns (ss : List PShape) :
    extractShapes ss = (allRunsShapes ss).filter (fun t => t ≠ "") := by
  cases ss with
  | nil => rfl
  | cons s ss =>
    simp only [extractShapes, allRunsShapes, List.filter_append]
    rw [extract_eq_filter_allRuns s, extractShapes_eq_filter_allRuns ss]
end

/-- The number of table-cell paragraphs of a DOCX document's tables: one per
paragraph of each cell, summed over cells, rows and tables. -/
def docxCellParaCount (tbls : List (List (List (List (List String))))) : Nat :=
  (tbls.map (fun tbl =>
    (tbl.map (fun row => (row.map (fun cell => cell.length)).sum)).sum)).sum

theorem docxRowUnits_length (row : List (List (List String))) :
    (docxRowUnits row).length = (row.map (fun cell => cell.length)).sum := by
  simp only [docxRowUnits, List.length_flatten, List.map_map]
  exact congrArg List.sum (List.map_congr_left (fun cell _ => by
    simp [Function.comp, docxCellUnits]))

theorem docxTableUnits_length (tbl : List (List (List (List String)))) :
    (docxTableUnits tbl).length
      = (tbl.map (fun row => (row.map (fun cell => cell.length)).sum)).sum := by
  simp only [docxTableUnits, List.length_flatten, List.map_map]
  exact congrArg List.sum (List.map_congr_left (fun row _ => by
    simp [Function.comp, docxRowUnits_length]))

theorem docxTablesUnits_length (tbls : List (List (List (List (List String))))) :
    (docxTablesUnits tbls).length = docxCellParaCount tbls := by
  simp only [docxTablesUnits, List.length_flatten, List.map_map, docxCellParaCount]
  exact congrArg List.sum (List.map_congr_left (fun tbl _ => by
    simp [Function.comp, docxTableUnits_length]))

/-- C8: the walker emits exactly one unit per top-level container — one per
slide for PPTX; for DOCX one per body paragraph plus one per table-cell
paragraph appended after all body-paragraph units — empty containers
included, and a unit's fragments are exactly the container's run texts in
traversal order filtered by text non-emptiness (whitespace-only runs are
kept, empty-string runs are dropped). -/
theorem c8_walker_unit_structure :
    (∀ (slides : List (List PShape)),
      (pptxExtractText slides).length = slides.length
      ∧ ∀ i (h : i < slides.length) (h2 : i < (pptxExtractText slides).length),
          (pptxExtractText slides).get ⟨i, h2⟩
            = ⟨(allRunsShapes (slides.get ⟨i, h⟩)).filter (fun t => t ≠ "")⟩)
    ∧ (∀ d : DocxDoc,
      (docxExtractText d).length = d.paragraphs.length + docxCellParaCount d.tables
      ∧ (∀ i (h : i < d.paragraphs.length) (h2 : i < (docxExtractText d).length),
          (docxExtractText d).get ⟨i, h2⟩
            = ⟨(d.paragraphs.get ⟨i, h⟩).filter (fun t => t ≠ "")⟩)
      ∧ (docxExtractText d).drop d.paragraphs.length = docxTablesUnits d.tables)
    ∧ keptRuns [" ", ""] = [" "] := by
  refine ⟨?_, ?_, by rfl⟩
  · intro slides
    constructor
    · simp [pptxExtractText]
    · intro i h h2
      simp only [pptxExtractText, List.get_eq_getElem, List.getElem_map]
      rw [extractShapes_eq_filter_allRuns]
  · intro d
    refine ⟨?_, ?_, ?_⟩
    · simp [docxExtractText, docxTablesUnits_length]
    · intro i h h2
      simp only [docxExtractText, List.get_eq_getElem]
      rw [List.getElem_append_left (by simpa using h)]
      simp only [List.getElem_map]
      rfl
    · rw [show docxExtractText d
          = d.paragraphs.map docxParaUnit ++ docxTablesUnits d.tables from rfl]
      rw [show d.paragraphs.length = (d.paragraphs.map docxParaUnit).length by simp]
      rw [List.drop_left]

/-- C8 witness: a one-slide presentation whose only shape holds a
whitespace-only run and an empty run yields exactly one unit whose single
fragment is the whitespace run. -/
theorem c8_walker_unit_structure_witness :
    (pptxExtractText [[PShape.mk (some [[" ", ""]]) none []]]).get
        ⟨0, by simp [pptxExtractText]⟩
      = ⟨[" "]⟩ := by
  have h := (c8_walker_unit_structure.1 [[PShape.mk (some [[" ", ""]]) none []]]).2 0
      (by simp) (by simp [pptxExtractText])
  exact h.trans rfl
